import Mathlib

/-!
Verification of `simple-log` (`src/log.h`), a single-header C++11 logging
facility.  The embedding below translates the global logger state `L`, the
five configuration setters, and the emission routine `log_log` into pure
Lean definitions.  Side effects (mutex operations, the caller-supplied lock
hook, `time(nullptr)`, sink writes and flushes) are recorded as an explicit
event trace.  Machine integers are modelled as `Int`/`Nat`; the two
floating-point nanosecond-to-seconds divisors are modelled exactly as
rationals.  The out-of-bounds hazard of `level_names[level]` is modelled by
returning `none` when an out-of-bounds access is reached.
-/

/-- The `enum { LOG_TRACE, ... }` constants from `log.h`. -/
def LOG_TRACE : Int := 0

def LOG_DEBUG : Int := 1

def LOG_INFO : Int := 2

def LOG_WARN : Int := 3

def LOG_ERROR : Int := 4

def LOG_FATAL : Int := 5

/-- The process-wide logger struct `L` of `log.h`.
`udata : void*` and `fp : FILE*` are modelled as optional handles
(`none` = null pointer); the function pointer `lock : log_LockFn` is
modelled by whether a hook is installed (its calls are traced as events). -/
structure LoggerState where
  udata : Option Int
  lock : Bool
  fp : Option Int
  level : Int
  quiet : Int
deriving DecidableEq, Repr

/-- `static struct { ... } L;` has static storage duration and is therefore
zero-initialized: null `udata`, null `lock`, null `fp`, `level = 0`
(= `LOG_TRACE`), `quiet = 0`. -/
def Linit : LoggerState :=
  { udata := none, lock := false, fp := none, level := 0, quiet := 0 }

/-- `static const char *level_names[] = { ... };` -/
def level_names : List String :=
  ["TRACE", "DEBUG", "INFO", "WARN", "ERROR", "FATAL"]

/-- C array indexing `level_names[level]` with an `int` index: defined
(in bounds) exactly when `0 ≤ level < 6`; otherwise the access is
out of bounds and yields `none`. -/
def levelNameAt (level : Int) : Option String :=
  if level < 0 then none else level_names.get? level.toNat

/-- `void log_set_udata(void *udata) { L.udata = udata; }` -/
def log_set_udata (st : LoggerState) (udata : Option Int) : LoggerState :=
  { st with udata := udata }

/-- `void log_set_lock(log_LockFn fn) { L.lock = fn; }` -/
def log_set_lock (st : LoggerState) (fn : Bool) : LoggerState :=
  { st with lock := fn }

/-- `void log_set_fp(FILE *fp) { L.fp = fp; }` -/
def log_set_fp (st : LoggerState) (fp : Option Int) : LoggerState :=
  { st with fp := fp }

/-- `void log_set_level(int level) { L.level = level; }` -/
def log_set_level (st : LoggerState) (level : Int) : LoggerState :=
  { st with level := level }

/-- `void log_set_quiet(int enable) { L.quiet = enable ? 1 : 0; }` -/
def log_set_quiet (st : LoggerState) (enable : Int) : LoggerState :=
  { st with quiet := if enable ≠ 0 then 1 else 0 }

/-- Observable actions performed by one `log_log` call, in program order. -/
inductive Event where
  /-- `high_resolution_clock::now()` -/
  | clockQuery : Event
  /-- `std::unique_lock<std::mutex> lock_global(global_log_mutex)` acquires. -/
  | mutexAcquire : Event
  /-- `L.lock(L.udata, flag)`: the installed hook called with the stored
  `udata` and the acquire flag (1 = acquire, 0 = release). -/
  | hookCall : Option Int → Int → Event
  /-- `time(nullptr)` (plus `localtime`), the wall-clock query. -/
  | timeQuery : Event
  /-- `fprintf(stderr, ...)` writing the given bytes to the console sink. -/
  | writeConsole : String → Event
  /-- `fprintf(L.fp, ...)` writing the given bytes to the file sink handle. -/
  | writeFile : Int → String → Event
  /-- `fflush(L.fp)` on the file sink handle. -/
  | flushFile : Int → Event
  /-- destructor of `lock_global` releases the internal mutex. -/
  | mutexRelease : Event
deriving DecidableEq, Repr

/-- `static void lock()` / `static void unlock()`: call the hook with the
given flag only when one is installed. -/
def hookEvents (st : LoggerState) (flag : Int) : List Event :=
  if st.lock then [Event.hookCall st.udata flag] else []

/-- The console-sink divisor: the C double literal `1e9` in
`count / 1e9`, modelled exactly as a rational (1e9 is exactly
representable in IEEE double). -/
def consoleDivisor : ℚ := 1e9

/-- The file-sink divisor: the C double literal `1000000000.0` in
`count / 1000000000.0`, modelled exactly as a rational. -/
def fileDivisor : ℚ := 1000000000.0

/-- The `ts` value printed on the console sink: nanosecond count divided
by `1e9`. -/
def console_ts (ns : Nat) : ℚ := (ns : ℚ) / consoleDivisor

/-- The `ts` value printed on the file sink: nanosecond count divided by
`1000000000.0`. -/
def file_ts (ns : Nat) : ℚ := (ns : ℚ) / fileDivisor

/-- Left-pad a numeral string with zeros to six characters (the fractional
part of a `%.6lf` conversion). -/
def padZeros6 (s : String) : String :=
  String.mk (List.replicate (6 - s.length) '0') ++ s

/-- Render a microsecond count as seconds with exactly six fractional
digits (the digits a `%.6lf` conversion prints). -/
def fmt6 (micro : Nat) : String :=
  toString (micro / 1000000) ++ "." ++ padZeros6 (toString (micro % 1000000))

/-- `%.6lf` on a nonnegative rational: round to the nearest multiple of
10⁻⁶ and print with exactly six fractional digits. -/
def fmt6q (q : ℚ) : String :=
  fmt6 (round (q * 1000000)).toNat

/-- `%-5s`: left-justify in a field of width five (no truncation). -/
def pad5 (s : String) : String :=
  s ++ String.mk (List.replicate (5 - s.length) ' ')

/-- The bytes of the console `fprintf`:
`"%s %-5s (ts: %.6lf) %s:%d: "` applied to the `strftime "%H:%M:%S"`
buffer, the level name, `count / 1e9`, the file name and the line.
Note the caller's `fmt`/varargs are NOT part of this format call. -/
def consoleLine (hms name : String) (ns : Nat) (file : String) (line : Int) : String :=
  hms ++ " " ++ pad5 name ++ " (ts: " ++ fmt6q (console_ts ns) ++ ") "
    ++ file ++ ":" ++ toString line ++ ": "

/-- The bytes of the file-sink `fprintf`:
`"%s %-5s (ts: %.6lf) %s:%d: "` applied to the
`strftime "%Y-%m-%d %H:%M:%S"` buffer, the level name,
`count / 1000000000.0`, the file name and the line. -/
def fileLine (ymdhms name : String) (ns : Nat) (file : String) (line : Int) : String :=
  ymdhms ++ " " ++ pad5 name ++ " (ts: " ++ fmt6q (file_ts ns) ++ ") "
    ++ file ++ ":" ++ toString line ++ ": "

/-- The `/* Log to stderr */` block (`if (!L.quiet) { ... }`): two console
writes (formatted line, then `"\n"`), or nothing when quiet; `none` when
the `level_names[level]` access is out of bounds. -/
def consoleEvents (st : LoggerState) (level : Int) (ns : Nat)
    (hms file : String) (line : Int) : Option (List Event) :=
  if st.quiet = 0 then
    match levelNameAt level with
    | some name =>
        some [Event.writeConsole (consoleLine hms name ns file line),
              Event.writeConsole "\n"]
    | none => none
  else some []

/-- The `/* Log to file */` block (`if (L.fp) { ... }`): two file writes
(formatted line, then `"\n"`) followed by `fflush`, or nothing when no
file sink is set; `none` on an out-of-bounds `level_names[level]`. -/
def fileEvents (st : LoggerState) (level : Int) (ns : Nat)
    (ymdhms file : String) (line : Int) : Option (List Event) :=
  match st.fp with
  | some h =>
      match levelNameAt level with
      | some name =>
          some [Event.writeFile h (fileLine ymdhms name ns file line),
                Event.writeFile h "\n", Event.flushFile h]
      | none => none
  | none => some []

/-- `void log_log(int level, const char *file, int line, const char *fmt, ...)`.
Environment inputs: `ns` is the nanosecond count of
`high_resolution_clock::now().time_since_epoch()` (queried once), `hms`
and `ymdhms` are the two `strftime` renderings of `time(nullptr)`.
The caller's `fmt` and variadic `args` are parameters of the call but the
body never reads them (the source contains no `vfprintf`).
Result: the trace of observable actions, or `none` when the call reaches
an out-of-bounds `level_names[level]` access. -/
def log_log (st : LoggerState) (level : Int) (file : String) (line : Int)
    (fmt : String) (args : List Int) (ns : Nat) (hms ymdhms : String) :
    Option (List Event) :=
  if level < st.level then
    some []
  else
    match consoleEvents st level ns hms file line,
          fileEvents st level ns ymdhms file line with
    | some ce, some fe =>
        some ([Event.clockQuery, Event.mutexAcquire] ++ hookEvents st 1
          ++ [Event.timeQuery] ++ ce ++ fe ++ hookEvents st 0
          ++ [Event.mutexRelease])
    | _, _ => none

/-- An event is a sink action (write or flush), as opposed to a lock or
time action. -/
def isSinkEvent : Event → Bool
  | Event.writeConsole _ => true
  | Event.writeFile _ _ => true
  | Event.flushFile _ => true
  | _ => false

/-- An event is a console-sink write. -/
def isConsoleWrite : Event → Bool
  | Event.writeConsole _ => true
  | _ => false

/-- An event is a file-sink action (write or flush). -/
def isFileEvent : Event → Bool
  | Event.writeFile _ _ => true
  | Event.flushFile _ => true
  | _ => false

/-- All bytes written to the console sink by a trace, in order. -/
def consoleOut : List Event → String
  | [] => ""
  | Event.writeConsole s :: es => s ++ consoleOut es
  | _ :: es => consoleOut es

/-- All bytes written to file-sink handle `h` by a trace, in order. -/
def fileOut (h : Int) : List Event → String
  | [] => ""
  | Event.writeFile h' s :: es =>
      (if h' = h then s else "") ++ fileOut h es
  | _ :: es => fileOut h es

/-- Number of newline characters in a string. -/
def newlines (s : String) : Nat := s.data.count '\n'

/-- One invocation of a configuration setter, for stating state-machine
invariants over arbitrary call sequences. -/
inductive Op where
  | setUdata : Option Int → Op
  | setLock : Bool → Op
  | setFp : Option Int → Op
  | setLevel : Int → Op
  | setQuiet : Int → Op
deriving DecidableEq, Repr

/-- Apply one setter call to the logger state. -/
def applyOp (st : LoggerState) : Op → LoggerState
  | Op.setUdata u => log_set_udata st u
  | Op.setLock b => log_set_lock st b
  | Op.setFp f => log_set_fp st f
  | Op.setLevel lv => log_set_level st lv
  | Op.setQuiet e => log_set_quiet st e

/-- Run a sequence of setter calls from the zero-initialized start state.
(`log_log` reads the state but never writes it, so emission calls are not
state transitions.) -/
def runOps (ops : List Op) : LoggerState := ops.foldl applyOp Linit

/-! ### Helper lemmas -/

theorem consoleDivisor_eq : consoleDivisor = 1000000000 := by
  norm_num [consoleDivisor]

theorem fileDivisor_eq : fileDivisor = 1000000000 := by
  norm_num [fileDivisor]

theorem round_micro (ns : Nat) :
    round ((ns : ℚ) / 1000000000 * 1000000) = ((ns + 500) / 1000 : Nat) := by
  have h1 : (ns : ℚ) / 1000000000 * 1000000 + 1 / 2
      = ((2 * ns + 1000 : ℤ) : ℚ) / ((2000 : ℕ) : ℚ) := by
    push_cast
    ring
  rw [round_eq, h1, Rat.floor_intCast_div_natCast]
  omega

theorem fmt6q_console (ns : Nat) :
    fmt6q (console_ts ns) = fmt6 ((ns + 500) / 1000) := by
  unfold fmt6q console_ts
  rw [consoleDivisor_eq, round_micro]
  congr 1

theorem fmt6q_file (ns : Nat) :
    fmt6q (file_ts ns) = fmt6 ((ns + 500) / 1000) := by
  unfold fmt6q file_ts
  rw [fileDivisor_eq, round_micro]
  congr 1

theorem consoleLine_eval (hms name : String) (ns : Nat) (file : String) (line : Int) :
    consoleLine hms name ns file line
      = hms ++ " " ++ pad5 name ++ " (ts: " ++ fmt6 ((ns + 500) / 1000) ++ ") "
        ++ file ++ ":" ++ toString line ++ ": " := by
  unfold consoleLine
  rw [fmt6q_console]

theorem fileLine_eval (ymdhms name : String) (ns : Nat) (file : String) (line : Int) :
    fileLine ymdhms name ns file line
      = ymdhms ++ " " ++ pad5 name ++ " (ts: " ++ fmt6 ((ns + 500) / 1000) ++ ") "
        ++ file ++ ":" ++ toString line ++ ": " := by
  unfold fileLine
  rw [fmt6q_file]

theorem levelNameAt_isSome (level : Int) :
    (levelNameAt level).isSome ↔ 0 ≤ level ∧ level < 6 := by
  have key : ∀ n : Nat, (level_names.get? n).isSome ↔ n < 6 := by
    intro n
    match n with
    | 0 | 1 | 2 | 3 | 4 | 5 => simp [level_names]
    | (m + 6) =>
        have hnone : level_names.get? (m + 6) = none := rfl
        rw [hnone]
        simp only [Option.isSome_none, Bool.false_eq_true, false_iff]
        omega
  unfold levelNameAt
  by_cases h : level < 0
  · simp [h]
  · rw [if_neg h, key]
    omega

theorem levelNameAt_exists (level : Int) (h0 : 0 ≤ level) (h6 : level < 6) :
    ∃ name, levelNameAt level = some name := by
  have := (levelNameAt_isSome level).mpr ⟨h0, h6⟩
  exact Option.isSome_iff_exists.mp this

theorem consoleEvents_quiet (st : LoggerState) (level : Int) (ns : Nat)
    (hms file : String) (line : Int) (h : ¬ st.quiet = 0) :
    consoleEvents st level ns hms file line = some [] := by
  unfold consoleEvents
  rw [if_neg h]

theorem consoleEvents_emit (st : LoggerState) (level : Int) (ns : Nat)
    (hms file : String) (line : Int) (name : String)
    (hq : st.quiet = 0) (hn : levelNameAt level = some name) :
    consoleEvents st level ns hms file line
      = some [Event.writeConsole (consoleLine hms name ns file line),
              Event.writeConsole "\n"] := by
  unfold consoleEvents
  rw [if_pos hq, hn]

theorem fileEvents_nofp (st : LoggerState) (level : Int) (ns : Nat)
    (ymdhms file : String) (line : Int) (h : st.fp = none) :
    fileEvents st level ns ymdhms file line = some [] := by
  unfold fileEvents
  rw [h]

theorem fileEvents_emit (st : LoggerState) (level : Int) (ns : Nat)
    (ymdhms file : String) (line : Int) (hdl : Int) (name : String)
    (hf : st.fp = some hdl) (hn : levelNameAt level = some name) :
    fileEvents st level ns ymdhms file line
      = some [Event.writeFile hdl (fileLine ymdhms name ns file line),
              Event.writeFile hdl "\n", Event.flushFile hdl] := by
  unfold fileEvents
  rw [hf, hn]

theorem log_log_skip (st : LoggerState) (level : Int) (file : String) (line : Int)
    (fmt : String) (args : List Int) (ns : Nat) (hms ymdhms : String)
    (h : level < st.level) :
    log_log st level file line fmt args ns hms ymdhms = some [] := by
  unfold log_log
  rw [if_pos h]

theorem log_log_emit (st : LoggerState) (level : Int) (file : String) (line : Int)
    (fmt : String) (args : List Int) (ns : Nat) (hms ymdhms : String)
    (ce fe : List Event)
    (hle : ¬ level < st.level)
    (hc : consoleEvents st level ns hms file line = some ce)
    (hf : fileEvents st level ns ymdhms file line = some fe) :
    log_log st level file line fmt args ns hms ymdhms
      = some ([Event.clockQuery, Event.mutexAcquire] ++ hookEvents st 1
          ++ [Event.timeQuery] ++ ce ++ fe ++ hookEvents st 0
          ++ [Event.mutexRelease]) := by
  unfold log_log
  rw [if_neg hle, hc, hf]

theorem levelNameAt_none (level : Int) (h : 6 ≤ level) :
    levelNameAt level = none := by
  cases o : levelNameAt level with
  | none => rfl
  | some name =>
      exfalso
      have h2 := (levelNameAt_isSome level).mp (by rw [o]; rfl)
      omega

theorem levelNameAt_mem (level : Int) (name : String)
    (h : levelNameAt level = some name) : name ∈ level_names := by
  unfold levelNameAt at h
  by_cases h0 : level < 0
  · rw [if_pos h0] at h
    exact absurd h (by simp)
  · rw [if_neg h0] at h
    exact List.get?_mem h

theorem digitChar_isDigit (n : Nat) (h : n < 10) : (Nat.digitChar n).isDigit := by
  interval_cases n <;> decide

theorem toDigitsCore_digits (fuel n : Nat) (ds : List Char)
    (hds : ∀ c ∈ ds, c.isDigit) :
    ∀ c ∈ Nat.toDigitsCore 10 fuel n ds, c.isDigit := by
  induction fuel generalizing n ds with
  | zero => simpa [Nat.toDigitsCore] using hds
  | succ fuel ih =>
      intro c hc
      rw [Nat.toDigitsCore] at hc
      by_cases h : n / 10 = 0
      · rw [if_pos h] at hc
        rcases List.mem_cons.mp hc with hc | hc
        · exact hc ▸ digitChar_isDigit _ (Nat.mod_lt _ (by decide))
        · exact hds c hc
      · rw [if_neg h] at hc
        refine ih (n / 10) (Nat.digitChar (n % 10) :: ds) ?_ c hc
        intro c' hc'
        rcases List.mem_cons.mp hc' with hc' | hc'
        · exact hc' ▸ digitChar_isDigit _ (Nat.mod_lt _ (by decide))
        · exact hds c' hc'

theorem natRepr_digits (n : Nat) : ∀ c ∈ (toString n).data, c.isDigit := by
  intro c hc
  have h : (toString n) = (Nat.toDigits 10 n).asString := rfl
  rw [h] at hc
  exact toDigitsCore_digits (n + 1) n [] (by simp) c hc

theorem newlines_append (s t : String) :
    newlines (s ++ t) = newlines s + newlines t := by
  unfold newlines
  rw [String.data_append, List.count_append]

theorem newlines_toString_nat (n : Nat) : newlines (toString n) = 0 := by
  unfold newlines
  refine List.count_eq_zero.mpr ?_
  intro hm
  exact absurd (natRepr_digits n '\n' hm) (by decide)

theorem newlines_toString_int (i : Int) : newlines (toString i) = 0 := by
  unfold newlines
  refine List.count_eq_zero.mpr ?_
  cases i with
  | ofNat n =>
      intro hm
      have h1 : (toString (Int.ofNat n)).data = (toString n).data := rfl
      rw [h1] at hm
      exact absurd (natRepr_digits n '\n' hm) (by decide)
  | negSucc n =>
      intro hm
      have h1 : (toString (Int.negSucc n)).data = '-' :: (toString (n + 1)).data := rfl
      rw [h1] at hm
      rcases List.mem_cons.mp hm with hm | hm
      · exact absurd hm (by decide)
      · exact absurd (natRepr_digits (n + 1) '\n' hm) (by decide)

theorem newlines_padZeros6 (s : String) : newlines (padZeros6 s) = newlines s := by
  unfold padZeros6 newlines
  rw [String.data_append]
  rw [List.count_append]
  have h : (String.mk (List.replicate (6 - s.length) '0')).data.count '\n' = 0 := by
    refine List.count_eq_zero.mpr ?_
    intro hm
    have := List.eq_of_mem_replicate hm
    exact absurd this (by decide)
  omega

theorem newlines_pad5 (s : String) : newlines (pad5 s) = newlines s := by
  unfold pad5 newlines
  rw [String.data_append, List.count_append]
  have h : (String.mk (List.replicate (5 - s.length) ' ')).data.count '\n' = 0 := by
    refine List.count_eq_zero.mpr ?_
    intro hm
    have := List.eq_of_mem_replicate hm
    exact absurd this (by decide)
  omega

theorem newlines_fmt6 (m : Nat) : newlines (fmt6 m) = 0 := by
  unfold fmt6
  rw [newlines_append, newlines_append, newlines_padZeros6,
    newlines_toString_nat, newlines_toString_nat]
  rfl

theorem newlines_name (name : String) (h : name ∈ level_names) :
    newlines name = 0 := by
  fin_cases h <;> decide

theorem newlines_consoleLine (hms name : String) (ns : Nat) (file : String)
    (line : Int) (hname : name ∈ level_names)
    (hhms : newlines hms = 0) (hfile : newlines file = 0) :
    newlines (consoleLine hms name ns file line) = 0 := by
  rw [consoleLine_eval]
  simp [newlines_append, newlines_pad5, newlines_fmt6, newlines_name name hname,
    newlines_toString_int, hhms, hfile, show newlines " " = 0 from rfl,
    show newlines " (ts: " = 0 from rfl, show newlines ") " = 0 from rfl,
    show newlines ":" = 0 from rfl, show newlines ": " = 0 from rfl]

theorem newlines_fileLine (ymdhms name : String) (ns : Nat) (file : String)
    (line : Int) (hname : name ∈ level_names)
    (hymd : newlines ymdhms = 0) (hfile : newlines file = 0) :
    newlines (fileLine ymdhms name ns file line) = 0 := by
  rw [fileLine_eval]
  simp [newlines_append, newlines_pad5, newlines_fmt6, newlines_name name hname,
    newlines_toString_int, hymd, hfile, show newlines " " = 0 from rfl,
    show newlines " (ts: " = 0 from rfl, show newlines ") " = 0 from rfl,
    show newlines ":" = 0 from rfl, show newlines ": " = 0 from rfl]

theorem consoleEvents_cases (st : LoggerState) (level : Int) (ns : Nat)
    (hms file : String) (line : Int) (ce : List Event)
    (h : consoleEvents st level ns hms file line = some ce) :
    ce = [] ∨ ∃ name, levelNameAt level = some name ∧ st.quiet = 0 ∧
      ce = [Event.writeConsole (consoleLine hms name ns file line),
            Event.writeConsole "\n"] := by
  unfold consoleEvents at h
  by_cases hq : st.quiet = 0
  · rw [if_pos hq] at h
    cases hn : levelNameAt level with
    | none => rw [hn] at h; exact absurd h (by simp)
    | some name =>
        rw [hn] at h
        injection h with h
        exact Or.inr ⟨name, rfl, hq, h.symm⟩
  · rw [if_neg hq] at h
    injection h with h
    exact Or.inl h.symm

theorem fileEvents_cases (st : LoggerState) (level : Int) (ns : Nat)
    (ymdhms file : String) (line : Int) (fe : List Event)
    (h : fileEvents st level ns ymdhms file line = some fe) :
    fe = [] ∨ ∃ hdl name, st.fp = some hdl ∧ levelNameAt level = some name ∧
      fe = [Event.writeFile hdl (fileLine ymdhms name ns file line),
            Event.writeFile hdl "\n", Event.flushFile hdl] := by
  unfold fileEvents at h
  cases hfp : st.fp with
  | none => rw [hfp] at h; injection h with h; exact Or.inl h.symm
  | some hdl =>
      rw [hfp] at h
      cases hn : levelNameAt level with
      | none => rw [hn] at h; exact absurd h (by simp)
      | some name =>
          rw [hn] at h
          injection h with h
          exact Or.inr ⟨hdl, name, rfl, rfl, h.symm⟩

theorem consoleEvents_sink (st : LoggerState) (level : Int) (ns : Nat)
    (hms file : String) (line : Int) (ce : List Event)
    (h : consoleEvents st level ns hms file line = some ce) :
    ∀ e ∈ ce, isSinkEvent e = true := by
  intro e he
  rcases consoleEvents_cases st level ns hms file line ce h with h1 | ⟨name, _, _, h1⟩
  · subst h1; exact absurd he (by simp)
  · subst h1
    rcases List.mem_cons.mp he with rfl | he
    · rfl
    · rcases List.mem_cons.mp he with rfl | he
      · rfl
      · exact absurd he (by simp)

theorem fileEvents_sink (st : LoggerState) (level : Int) (ns : Nat)
    (ymdhms file : String) (line : Int) (fe : List Event)
    (h : fileEvents st level ns ymdhms file line = some fe) :
    ∀ e ∈ fe, isSinkEvent e = true := by
  intro e he
  rcases fileEvents_cases st level ns ymdhms file line fe h with h1 | ⟨hdl, name, _, _, h1⟩
  · subst h1; exact absurd he (by simp)
  · subst h1
    rcases List.mem_cons.mp he with rfl | he
    · rfl
    · rcases List.mem_cons.mp he with rfl | he
      · rfl
      · rcases List.mem_cons.mp he with rfl | he
        · rfl
        · exact absurd he (by simp)

theorem count_sink_zero (ws : List Event) (h : ∀ e ∈ ws, isSinkEvent e = true)
    (a : Event) (ha : isSinkEvent a = false) : ws.count a = 0 := by
  refine List.count_eq_zero.mpr ?_
  intro hm
  have := h a hm
  rw [ha] at this
  exact Bool.noConfusion this

theorem log_log_err (st : LoggerState) (level : Int) (file : String) (line : Int)
    (fmt : String) (args : List Int) (ns : Nat) (hms ymdhms : String)
    (hle : ¬ level < st.level)
    (hc : consoleEvents st level ns hms file line = none) :
    log_log st level file line fmt args ns hms ymdhms = none := by
  unfold log_log
  rw [if_neg hle, hc]

/-! ### Claims -/

/-- C2: a call with `level < threshold` returns immediately with no side
effects: the trace is empty — zero sink writes, no `time(nullptr)` query,
no mutex acquisition and zero lock-hook invocations. -/
theorem C2_suppressed_call_has_no_effects (st : LoggerState) (level : Int)
    (file : String) (line : Int) (fmt : String) (args : List Int) (ns : Nat)
    (hms ymdhms : String) (h : level < st.level) :
    log_log st level file line fmt args ns hms ymdhms = some [] :=
  log_log_skip st level file line fmt args ns hms ymdhms h

theorem C2_suppressed_call_has_no_effects_witness :
    log_log (log_set_level Linit LOG_INFO) LOG_DEBUG "a.cpp" 10 "x=%d" [5]
      7 "16:30:17" "2019-01-01 16:30:17" = some [] :=
  C2_suppressed_call_has_no_effects (log_set_level Linit LOG_INFO) LOG_DEBUG
    "a.cpp" 10 "x=%d" [5] 7 "16:30:17" "2019-01-01 16:30:17" (by decide)

/-- C7: the zero-initialized static state holds the documented defaults
(threshold `LOG_TRACE`, quiet off, no file sink, no lock hook, no user
data), no nonnegative level is below the default threshold, and every call
at an enumerated level succeeds immediately (the logger is ready to emit
with no initialization step). -/
theorem C7_default_state_ready :
    Linit.level = LOG_TRACE ∧ Linit.quiet = 0 ∧ Linit.fp = none ∧
    Linit.lock = false ∧ Linit.udata = none ∧
    (∀ level : Int, 0 ≤ level → ¬ level < Linit.level) ∧
    (∀ (level : Int) (file : String) (line : Int) (fmt : String)
        (args : List Int) (ns : Nat) (hms ymdhms : String),
      0 ≤ level → level < 6 →
      (log_log Linit level file line fmt args ns hms ymdhms).isSome) := by
  refine ⟨rfl, rfl, rfl, rfl, rfl, ?_, ?_⟩
  · intro level h0
    simp only [Linit]
    omega
  · intro level file line fmt args ns hms ymdhms h0 h6
    obtain ⟨name, hn⟩ := levelNameAt_exists level h0 h6
    have hle : ¬ level < Linit.level := by
      simp only [Linit]
      omega
    rw [log_log_emit Linit level file line fmt args ns hms ymdhms _ _ hle
      (consoleEvents_emit Linit level ns hms file line name rfl hn)
      (fileEvents_nofp Linit level ns ymdhms file line rfl)]
    rfl

theorem C7_default_state_ready_witness :
    (log_log Linit LOG_TRACE "b.cpp" 1 "hello" [] 0 "00:00:00"
      "1970-01-01 00:00:00").isSome :=
  C7_default_state_ready.2.2.2.2.2.2 LOG_TRACE "b.cpp" 1 "hello" [] 0
    "00:00:00" "1970-01-01 00:00:00" (by decide) (by decide)

/-- C8: every configuration setter writes only its own field of the
process-wide state and leaves the four other fields unchanged (and, the
embedding being a pure state update with no event trace, performs no I/O
and cannot fail); `log_set_fp` installs or replaces the sink handle
without any action on the previous handle. -/
theorem C8_setters_modify_only_own_field (st : LoggerState) (u f : Option Int)
    (b : Bool) (lv e : Int) :
    ((log_set_udata st u).udata = u ∧ (log_set_udata st u).lock = st.lock ∧
      (log_set_udata st u).fp = st.fp ∧ (log_set_udata st u).level = st.level ∧
      (log_set_udata st u).quiet = st.quiet) ∧
    ((log_set_lock st b).lock = b ∧ (log_set_lock st b).udata = st.udata ∧
      (log_set_lock st b).fp = st.fp ∧ (log_set_lock st b).level = st.level ∧
      (log_set_lock st b).quiet = st.quiet) ∧
    ((log_set_fp st f).fp = f ∧ (log_set_fp st f).udata = st.udata ∧
      (log_set_fp st f).lock = st.lock ∧ (log_set_fp st f).level = st.level ∧
      (log_set_fp st f).quiet = st.quiet) ∧
    ((log_set_level st lv).level = lv ∧ (log_set_level st lv).udata = st.udata ∧
      (log_set_level st lv).lock = st.lock ∧ (log_set_level st lv).fp = st.fp ∧
      (log_set_level st lv).quiet = st.quiet) ∧
    ((log_set_quiet st e).quiet = (if e ≠ 0 then 1 else 0) ∧
      (log_set_quiet st e).udata = st.udata ∧ (log_set_quiet st e).lock = st.lock ∧
      (log_set_quiet st e).fp = st.fp ∧ (log_set_quiet st e).level = st.level) := by
  repeat' apply And.intro
  all_goals rfl

/-- C10: `log_set_quiet e` stores 1 exactly when `e` is nonzero and 0
otherwise; no other setter writes the quiet field; hence over every
sequence of setter calls from the zero-initialized start state the quiet
field stays in {0, 1}. -/
theorem C10_quiet_is_boolean :
    (∀ (st : LoggerState) (e : Int),
      ((log_set_quiet st e).quiet = 1 ↔ e ≠ 0) ∧
      ((log_set_quiet st e).quiet = 0 ↔ e = 0)) ∧
    (∀ (st : LoggerState) (o : Op),
      (∀ e, o ≠ Op.setQuiet e) → (applyOp st o).quiet = st.quiet) ∧
    (∀ ops : List Op, (runOps ops).quiet = 0 ∨ (runOps ops).quiet = 1) := by
  refine ⟨?_, ?_, ?_⟩
  · intro st e
    unfold log_set_quiet
    by_cases h : e = 0 <;> simp [h]
  · intro st o ho
    cases o with
    | setQuiet e => exact absurd rfl (ho e)
    | setUdata u => rfl
    | setLock b => rfl
    | setFp f => rfl
    | setLevel lv => rfl
  · intro ops
    have key : ∀ (l : List Op) (st : LoggerState), st.quiet = 0 ∨ st.quiet = 1 →
        (l.foldl applyOp st).quiet = 0 ∨ (l.foldl applyOp st).quiet = 1 := by
      intro l
      induction l with
      | nil => intro st h; exact h
      | cons o t ih =>
          intro st h
          apply ih
          cases o with
          | setQuiet e => by_cases he : e = 0 <;> simp [applyOp, log_set_quiet, he]
          | setUdata u => exact h
          | setLock b => exact h
          | setFp f => exact h
          | setLevel lv => exact h
    exact key ops Linit (Or.inl rfl)

theorem C10_quiet_is_boolean_witness :
    (applyOp Linit (Op.setLevel 3)).quiet = Linit.quiet :=
  C10_quiet_is_boolean.2.1 Linit (Op.setLevel 3) (fun e h => Op.noConfusion h)

/-- C1: refuted by the code — `log_log` accepts `fmt` and the variadic
arguments but never formats or writes them (there is no `vfprintf` in the
body), so an emitted console line ends in `"file:line: "` with no message.
At the claim's own input (`log(LOG_WARN, "a.cpp", 11, "x=%d", 5)` with
threshold `LOG_INFO`, quiet off), the full trace is computed below: its
single console line is `"16:30:17 WARN  (ts: 59417.113566) a.cpp:11: \n"`,
the trace is identical for every `fmt`/`args`, and the formatted message
`"x=5"` (followed by the newline) is not a suffix of the emitted line. -/
theorem C1_message_is_never_formatted :
    log_log (log_set_level Linit LOG_INFO) LOG_WARN "a.cpp" 11 "x=%d" [5]
        59417113566000 "16:30:17" "2019-06-01 16:30:17"
      = some [Event.clockQuery, Event.mutexAcquire, Event.timeQuery,
          Event.writeConsole "16:30:17 WARN  (ts: 59417.113566) a.cpp:11: ",
          Event.writeConsole "\n", Event.mutexRelease]
    ∧ (∀ (fmtX : String) (argsX : List Int),
        log_log (log_set_level Linit LOG_INFO) LOG_WARN "a.cpp" 11 fmtX argsX
            59417113566000 "16:30:17" "2019-06-01 16:30:17"
          = log_log (log_set_level Linit LOG_INFO) LOG_WARN "a.cpp" 11 "x=%d"
            [5] 59417113566000 "16:30:17" "2019-06-01 16:30:17")
    ∧ consoleOut [Event.clockQuery, Event.mutexAcquire, Event.timeQuery,
          Event.writeConsole "16:30:17 WARN  (ts: 59417.113566) a.cpp:11: ",
          Event.writeConsole "\n", Event.mutexRelease]
        = "16:30:17 WARN  (ts: 59417.113566) a.cpp:11: \n"
    ∧ ¬ ("x=5\n".data <:+
          "16:30:17 WARN  (ts: 59417.113566) a.cpp:11: \n".data) := by
  refine ⟨?_, fun fmtX argsX => rfl, by decide, by decide⟩
  rw [log_log_emit _ _ _ _ _ _ _ _ _ _ _ (by decide)
      (consoleEvents_emit _ _ _ _ _ _ "WARN" rfl (by decide))
      (fileEvents_nofp _ _ _ _ _ _ rfl)]
  rw [consoleLine_eval]
  decide

/-- C9: indexing `level_names[level]` is in bounds exactly for the six
enumerated levels `0..5`; under that precondition every call completes
without reaching the out-of-bounds branch (for every state), while a call
with `level ≥ 6` that passes the threshold check with the console sink
active (`quiet == 0`, the default) reaches the out-of-bounds access. -/
theorem C9_level_indexing_bounds (st : LoggerState) (level : Int)
    (file : String) (line : Int) (fmt : String) (args : List Int) (ns : Nat)
    (hms ymdhms : String) :
    ((levelNameAt level).isSome ↔ (0 ≤ level ∧ level < 6)) ∧
    (0 ≤ level → level < 6 →
      (log_log st level file line fmt args ns hms ymdhms).isSome) ∧
    (¬ level < st.level → 6 ≤ level → st.quiet = 0 →
      log_log st level file line fmt args ns hms ymdhms = none) := by
  refine ⟨levelNameAt_isSome level, ?_, ?_⟩
  · intro h0 h6
    by_cases hlt : level < st.level
    · rw [log_log_skip st level file line fmt args ns hms ymdhms hlt]
      rfl
    · obtain ⟨name, hn⟩ := levelNameAt_exists level h0 h6
      have hc : ∃ ce, consoleEvents st level ns hms file line = some ce := by
        by_cases hq : st.quiet = 0
        · exact ⟨_, consoleEvents_emit st level ns hms file line name hq hn⟩
        · exact ⟨_, consoleEvents_quiet st level ns hms file line hq⟩
      have hf : ∃ fe, fileEvents st level ns ymdhms file line = some fe := by
        cases hfp : st.fp with
        | none => exact ⟨_, fileEvents_nofp st level ns ymdhms file line hfp⟩
        | some hdl =>
            exact ⟨_, fileEvents_emit st level ns ymdhms file line hdl name hfp hn⟩
      obtain ⟨ce, hc⟩ := hc
      obtain ⟨fe, hf⟩ := hf
      rw [log_log_emit st level file line fmt args ns hms ymdhms ce fe hlt hc hf]
      rfl
  · intro hle h6 hq
    refine log_log_err st level file line fmt args ns hms ymdhms hle ?_
    unfold consoleEvents
    rw [if_pos hq, levelNameAt_none level h6]

theorem C9_level_indexing_bounds_witness :
    log_log Linit 7 "a.cpp" 1 "boom" [] 0 "00:00:01" "1970-01-01 00:00:01"
      = none :=
  (C9_level_indexing_bounds Linit 7 "a.cpp" 1 "boom" [] 0 "00:00:01"
    "1970-01-01 00:00:01").2.2 (by decide) (by decide) rfl

theorem log_log_err2 (st : LoggerState) (level : Int) (file : String)
    (line : Int) (fmt : String) (args : List Int) (ns : Nat)
    (hms ymdhms : String) (ce : List Event)
    (hle : ¬ level < st.level)
    (hc : consoleEvents st level ns hms file line = some ce)
    (hf : fileEvents st level ns ymdhms file line = none) :
    log_log st level file line fmt args ns hms ymdhms = none := by
  unfold log_log
  rw [if_neg hle, hc, hf]

theorem log_log_some_decomp (st : LoggerState) (level : Int) (file : String)
    (line : Int) (fmt : String) (args : List Int) (ns : Nat)
    (hms ymdhms : String) (evts : List Event)
    (hle : ¬ level < st.level)
    (hsome : log_log st level file line fmt args ns hms ymdhms = some evts) :
    ∃ ce fe, consoleEvents st level ns hms file line = some ce ∧
      fileEvents st level ns ymdhms file line = some fe ∧
      evts = [Event.clockQuery, Event.mutexAcquire] ++ hookEvents st 1
        ++ [Event.timeQuery] ++ ce ++ fe ++ hookEvents st 0
        ++ [Event.mutexRelease] := by
  cases hc : consoleEvents st level ns hms file line with
  | none =>
      rw [log_log_err st level file line fmt args ns hms ymdhms hle hc] at hsome
      exact absurd hsome (by simp)
  | some ce =>
      cases hf : fileEvents st level ns ymdhms file line with
      | none =>
          rw [log_log_err2 st level file line fmt args ns hms ymdhms ce hle hc hf]
            at hsome
          exact absurd hsome (by simp)
      | some fe =>
          rw [log_log_emit st level file line fmt args ns hms ymdhms ce fe
            hle hc hf] at hsome
          injection hsome with h
          exact ⟨ce, fe, rfl, rfl, h.symm⟩

theorem hookEvents_set_quiet (st : LoggerState) (e f : Int) :
    hookEvents (log_set_quiet st e) f = hookEvents st f := rfl

theorem filter_console_hookEvents (st : LoggerState) (f : Int) :
    (hookEvents st f).filter isConsoleWrite = [] := by
  unfold hookEvents
  split <;> rfl

theorem filter_file_hookEvents (st : LoggerState) (f : Int) :
    (hookEvents st f).filter isFileEvent = [] := by
  unfold hookEvents
  split <;> rfl

theorem consoleOut_append (xs ys : List Event) :
    consoleOut (xs ++ ys) = consoleOut xs ++ consoleOut ys := by
  induction xs with
  | nil => simp [consoleOut]
  | cons e t ih => cases e <;> simp [consoleOut, ih, String.append_assoc]

theorem consoleOut_hookEvents (st : LoggerState) (f : Int) :
    consoleOut (hookEvents st f) = "" := by
  unfold hookEvents
  split <;> rfl

/-- C3: for every emitted call the trace enters the critical section by
acquiring the internal mutex first and then (when a hook is installed)
invoking the hook exactly once with acquire=1 before any sink action, and
leaves it in reverse order: the hook exactly once with acquire=0 after all
sink actions, then the mutex release; between the brackets only sink
actions occur.  Suppressed calls invoke the hook zero times. -/
theorem C3_lock_ordering :
    (∀ (st : LoggerState) (level : Int) (file : String) (line : Int)
        (fmt : String) (args : List Int) (ns : Nat) (hms ymdhms : String)
        (evts : List Event),
      st.lock = true → ¬ level < st.level →
      log_log st level file line fmt args ns hms ymdhms = some evts →
      ∃ ws,
        evts = [Event.clockQuery, Event.mutexAcquire,
            Event.hookCall st.udata 1, Event.timeQuery] ++ ws
          ++ [Event.hookCall st.udata 0, Event.mutexRelease] ∧
        (∀ e ∈ ws, isSinkEvent e = true) ∧
        evts.count (Event.hookCall st.udata 1) = 1 ∧
        evts.count (Event.hookCall st.udata 0) = 1) ∧
    (∀ (st : LoggerState) (level : Int) (file : String) (line : Int)
        (fmt : String) (args : List Int) (ns : Nat) (hms ymdhms : String)
        (evts : List Event),
      level < st.level →
      log_log st level file line fmt args ns hms ymdhms = some evts →
      ∀ (u : Option Int) (f : Int), evts.count (Event.hookCall u f) = 0) := by
  constructor
  · intro st level file line fmt args ns hms ymdhms evts hlock hle hsome
    obtain ⟨ce, fe, hc, hf, hevts⟩ :=
      log_log_some_decomp st level file line fmt args ns hms ymdhms evts hle hsome
    have hce := consoleEvents_sink st level ns hms file line ce hc
    have hfe := fileEvents_sink st level ns ymdhms file line fe hf
    have hws : ∀ e ∈ ce ++ fe, isSinkEvent e = true := by
      intro e he
      rcases List.mem_append.mp he with h | h
      exacts [hce e h, hfe e h]
    have hc1 : ce.count (Event.hookCall st.udata 1) = 0 :=
      count_sink_zero ce hce _ rfl
    have hc0 : ce.count (Event.hookCall st.udata 0) = 0 :=
      count_sink_zero ce hce _ rfl
    have hf1 : fe.count (Event.hookCall st.udata 1) = 0 :=
      count_sink_zero fe hfe _ rfl
    have hf0 : fe.count (Event.hookCall st.udata 0) = 0 :=
      count_sink_zero fe hfe _ rfl
    refine ⟨ce ++ fe, ?_, hws, ?_, ?_⟩
    · rw [hevts]
      simp [hookEvents, hlock]
    · rw [hevts]
      simp [hookEvents, hlock, List.count_append, hc1, hf1]
    · rw [hevts]
      simp [hookEvents, hlock, List.count_append, hc0, hf0]
  · intro st level file line fmt args ns hms ymdhms evts hlt hsome u f
    rw [log_log_skip st level file line fmt args ns hms ymdhms hlt] at hsome
    injection hsome with h
    rw [← h]
    rfl

theorem C3_lock_ordering_witness :
    ∃ ws,
      ([Event.clockQuery, Event.mutexAcquire, Event.hookCall (some 5) 1,
        Event.timeQuery, Event.hookCall (some 5) 0, Event.mutexRelease]
          : List Event)
        = [Event.clockQuery, Event.mutexAcquire, Event.hookCall (some 5) 1,
           Event.timeQuery] ++ ws
          ++ [Event.hookCall (some 5) 0, Event.mutexRelease] ∧
      (∀ e ∈ ws, isSinkEvent e = true) ∧
      ([Event.clockQuery, Event.mutexAcquire, Event.hookCall (some 5) 1,
        Event.timeQuery, Event.hookCall (some 5) 0, Event.mutexRelease]
          : List Event).count (Event.hookCall (some 5) 1) = 1 ∧
      ([Event.clockQuery, Event.mutexAcquire, Event.hookCall (some 5) 1,
        Event.timeQuery, Event.hookCall (some 5) 0, Event.mutexRelease]
          : List Event).count (Event.hookCall (some 5) 0) = 1 :=
  C3_lock_ordering.1
    (log_set_quiet (log_set_lock (log_set_udata Linit (some 5)) true) 1)
    0 "a.cpp" 1 "m" [] 0 "16:30:17" "2019-06-01 16:30:17"
    [Event.clockQuery, Event.mutexAcquire, Event.hookCall (some 5) 1,
     Event.timeQuery, Event.hookCall (some 5) 0, Event.mutexRelease]
    rfl (by decide) (by decide)

/-- C6: the console divisor `1e9` and the file divisor `1000000000.0`
denote the same quantity, so the two sinks' ts conversions agree on every
nanosecond count — both as exact values and after `%.6lf` rendering — and
every emitted call queries the high-resolution clock exactly once (the one
captured value feeds both sinks). -/
theorem C6_ts_conversions_agree (st : LoggerState) (level : Int)
    (file : String) (line : Int) (fmt : String) (args : List Int) (ns : Nat)
    (hms ymdhms : String) (evts : List Event)
    (hle : ¬ level < st.level)
    (hsome : log_log st level file line fmt args ns hms ymdhms = some evts) :
    consoleDivisor = fileDivisor ∧
    console_ts ns = file_ts ns ∧
    fmt6q (console_ts ns) = fmt6q (file_ts ns) ∧
    evts.count Event.clockQuery = 1 := by
  refine ⟨by rw [consoleDivisor_eq, fileDivisor_eq], ?_, ?_, ?_⟩
  · unfold console_ts file_ts
    rw [consoleDivisor_eq, fileDivisor_eq]
  · rw [fmt6q_console, fmt6q_file]
  · obtain ⟨ce, fe, hc, hf, hevts⟩ :=
      log_log_some_decomp st level file line fmt args ns hms ymdhms evts hle hsome
    have hce := consoleEvents_sink st level ns hms file line ce hc
    have hfe := fileEvents_sink st level ns ymdhms file line fe hf
    have h1 : ce.count Event.clockQuery = 0 := count_sink_zero ce hce _ rfl
    have h2 : fe.count Event.clockQuery = 0 := count_sink_zero fe hfe _ rfl
    rw [hevts]
    by_cases hl : st.lock <;>
      simp [hookEvents, hl, List.count_append, h1, h2]

theorem C6_ts_conversions_agree_witness :
    consoleDivisor = fileDivisor ∧
    console_ts 7 = file_ts 7 ∧
    fmt6q (console_ts 7) = fmt6q (file_ts 7) ∧
    ([Event.clockQuery, Event.mutexAcquire, Event.timeQuery,
      Event.mutexRelease] : List Event).count Event.clockQuery = 1 :=
  C6_ts_conversions_agree (log_set_quiet Linit 1) 0 "a.cpp" 2 "m" [] 7
    "16:30:17" "2019-06-01 16:30:17"
    [Event.clockQuery, Event.mutexAcquire, Event.timeQuery,
     Event.mutexRelease] (by decide) (by decide)

theorem consoleEvents_filter_file (st : LoggerState) (level : Int) (ns : Nat)
    (hms file : String) (line : Int) (ce : List Event)
    (h : consoleEvents st level ns hms file line = some ce) :
    ce.filter isFileEvent = [] := by
  rcases consoleEvents_cases st level ns hms file line ce h with
    h1 | ⟨name, _, _, h1⟩ <;> subst h1 <;> rfl

theorem fileEvents_filter_file (st : LoggerState) (level : Int) (ns : Nat)
    (ymdhms file : String) (line : Int) (fe : List Event)
    (h : fileEvents st level ns ymdhms file line = some fe) :
    fe.filter isFileEvent = fe := by
  rcases fileEvents_cases st level ns ymdhms file line fe h with
    h1 | ⟨hdl, name, _, _, h1⟩ <;> subst h1 <;> rfl

theorem fileEvents_filter_console (st : LoggerState) (level : Int) (ns : Nat)
    (ymdhms file : String) (line : Int) (fe : List Event)
    (h : fileEvents st level ns ymdhms file line = some fe) :
    fe.filter isConsoleWrite = [] := by
  rcases fileEvents_cases st level ns ymdhms file line fe h with
    h1 | ⟨hdl, name, _, _, h1⟩ <;> subst h1 <;> rfl

theorem fileEvents_set_quiet (st : LoggerState) (e : Int) (level : Int)
    (ns : Nat) (ymdhms file : String) (line : Int) :
    fileEvents (log_set_quiet st e) level ns ymdhms file line
      = fileEvents st level ns ymdhms file line := rfl

/-- C4: with quiet enabled (`log_set_quiet` called with a nonzero value),
an emitted trace contains no console writes, while the file-sink events of
the call are exactly those of the same call with quiet disabled
(`log_set_quiet` with 0), for every threshold and enumerated level. -/
theorem C4_quiet_suppresses_console_only (st : LoggerState) (e : Int)
    (level : Int) (file : String) (line : Int) (fmt : String)
    (args : List Int) (ns : Nat) (hms ymdhms : String)
    (he : e ≠ 0) (h0 : 0 ≤ level) (h6 : level < 6) :
    (∀ evts,
      log_log (log_set_quiet st e) level file line fmt args ns hms ymdhms
        = some evts →
      evts.filter isConsoleWrite = []) ∧
    (log_log (log_set_quiet st e) level file line fmt args ns hms ymdhms).map
        (List.filter isFileEvent)
      = (log_log (log_set_quiet st 0) level file line fmt args ns hms
          ymdhms).map (List.filter isFileEvent) := by
  have hq1 : ¬ (log_set_quiet st e).quiet = 0 := by
    simp [log_set_quiet, he]
  constructor
  · intro evts hsome
    by_cases hlt : level < (log_set_quiet st e).level
    · rw [log_log_skip _ level file line fmt args ns hms ymdhms hlt] at hsome
      injection hsome with h
      rw [← h]
      rfl
    · obtain ⟨ce, fe, hc, hf, hevts⟩ := log_log_some_decomp _ level file line
        fmt args ns hms ymdhms evts hlt hsome
      have hce : ce = [] := by
        rw [consoleEvents_quiet _ level ns hms file line hq1] at hc
        injection hc with h
        exact h.symm
      subst hce
      have hfc := fileEvents_filter_console _ level ns ymdhms file line fe hf
      rw [hevts]
      simp [List.filter_append, filter_console_hookEvents, hfc,
        isConsoleWrite]
  · by_cases hlt : level < st.level
    · rw [log_log_skip (log_set_quiet st e) level file line fmt args ns hms
          ymdhms hlt,
        log_log_skip (log_set_quiet st 0) level file line fmt args ns hms
          ymdhms hlt]
    · obtain ⟨name, hn⟩ := levelNameAt_exists level h0 h6
      have hcq := consoleEvents_quiet (log_set_quiet st e) level ns hms file
        line hq1
      have hc0 := consoleEvents_emit (log_set_quiet st 0) level ns hms file
        line name (by simp [log_set_quiet]) hn
      cases hfp : st.fp with
      | none =>
          have hfe := fileEvents_nofp (log_set_quiet st e) level ns ymdhms
            file line hfp
          have hf0 := fileEvents_nofp (log_set_quiet st 0) level ns ymdhms
            file line hfp
          rw [log_log_emit (log_set_quiet st e) level file line fmt args ns
              hms ymdhms _ _ hlt hcq hfe,
            log_log_emit (log_set_quiet st 0) level file line fmt args ns
              hms ymdhms _ _ hlt hc0 hf0]
          simp [List.filter_append, filter_file_hookEvents,
            hookEvents_set_quiet, isFileEvent]
      | some hdl =>
          have hfe := fileEvents_emit (log_set_quiet st e) level ns ymdhms
            file line hdl name hfp hn
          have hf0 := fileEvents_emit (log_set_quiet st 0) level ns ymdhms
            file line hdl name hfp hn
          rw [log_log_emit (log_set_quiet st e) level file line fmt args ns
              hms ymdhms _ _ hlt hcq hfe,
            log_log_emit (log_set_quiet st 0) level file line fmt args ns
              hms ymdhms _ _ hlt hc0 hf0]
          simp [List.filter_append, filter_file_hookEvents,
            hookEvents_set_quiet, isFileEvent]

theorem C4_quiet_suppresses_console_only_witness :
    (∀ evts,
      log_log (log_set_quiet (log_set_fp Linit (some 3)) 1) LOG_INFO "a.cpp"
          12 "x=%d" [5] 9 "16:30:17" "2019-06-01 16:30:17" = some evts →
      evts.filter isConsoleWrite = []) ∧
    (log_log (log_set_quiet (log_set_fp Linit (some 3)) 1) LOG_INFO "a.cpp"
        12 "x=%d" [5] 9 "16:30:17" "2019-06-01 16:30:17").map
        (List.filter isFileEvent)
      = (log_log (log_set_quiet (log_set_fp Linit (some 3)) 0) LOG_INFO
          "a.cpp" 12 "x=%d" [5] 9 "16:30:17" "2019-06-01 16:30:17").map
          (List.filter isFileEvent) :=
  C4_quiet_suppresses_console_only (log_set_fp Linit (some 3)) 1 LOG_INFO
    "a.cpp" 12 "x=%d" [5] 9 "16:30:17" "2019-06-01 16:30:17"
    (by decide) (by decide) (by decide)

/-- C5: every emitted call writes exactly one line to the console sink
(unless quiet) — the newline-free formatted line then a single `"\n"` —
and exactly one line to the file sink (if configured), whose two writes
are immediately followed by the forced `fflush`; with no file sink there
are no file-sink actions. -/
theorem C5_one_line_per_sink_with_flush (st : LoggerState) (level : Int)
    (file : String) (line : Int) (fmt : String) (args : List Int) (ns : Nat)
    (hms ymdhms : String)
    (h0 : 0 ≤ level) (h6 : level < 6) (hle : ¬ level < st.level)
    (hfile : newlines file = 0) (hhms : newlines hms = 0)
    (hymd : newlines ymdhms = 0) :
    ∃ evts, log_log st level file line fmt args ns hms ymdhms = some evts ∧
      (st.quiet = 0 → ∃ cl, evts.filter isConsoleWrite
          = [Event.writeConsole cl, Event.writeConsole "\n"]
        ∧ newlines cl = 0) ∧
      (st.quiet ≠ 0 → evts.filter isConsoleWrite = []) ∧
      (∀ hdl, st.fp = some hdl → ∃ fl, evts.filter isFileEvent
          = [Event.writeFile hdl fl, Event.writeFile hdl "\n",
             Event.flushFile hdl]
        ∧ newlines fl = 0) ∧
      (st.fp = none → evts.filter isFileEvent = []) := by
  obtain ⟨name, hn⟩ := levelNameAt_exists level h0 h6
  have hmem := levelNameAt_mem level name hn
  by_cases hq : st.quiet = 0
  · cases hfp : st.fp with
    | none =>
        refine ⟨_, log_log_emit st level file line fmt args ns hms ymdhms _ _
          hle (consoleEvents_emit st level ns hms file line name hq hn)
          (fileEvents_nofp st level ns ymdhms file line hfp), ?_, ?_, ?_, ?_⟩
        · intro _
          refine ⟨consoleLine hms name ns file line, ?_,
            newlines_consoleLine hms name ns file line hmem hhms hfile⟩
          simp [List.filter_append, filter_console_hookEvents,
            isConsoleWrite, List.filter]
        · intro h
          exact absurd hq h
        · intro hdl h
          exact absurd h (by simp)
        · intro _
          simp [List.filter_append, filter_file_hookEvents,
            isFileEvent, List.filter]
    | some hdl =>
        refine ⟨_, log_log_emit st level file line fmt args ns hms ymdhms _ _
          hle (consoleEvents_emit st level ns hms file line name hq hn)
          (fileEvents_emit st level ns ymdhms file line hdl name hfp hn),
          ?_, ?_, ?_, ?_⟩
        · intro _
          refine ⟨consoleLine hms name ns file line, ?_,
            newlines_consoleLine hms name ns file line hmem hhms hfile⟩
          simp [List.filter_append, filter_console_hookEvents,
            isConsoleWrite, List.filter]
        · intro h
          exact absurd hq h
        · intro hdl' h
          injection h with h
          subst h
          refine ⟨fileLine ymdhms name ns file line, ?_,
            newlines_fileLine ymdhms name ns file line hmem hymd hfile⟩
          simp [List.filter_append, filter_file_hookEvents,
            isFileEvent, List.filter]
        · intro h
          exact absurd h (by simp)
  · cases hfp : st.fp with
    | none =>
        refine ⟨_, log_log_emit st level file line fmt args ns hms ymdhms _ _
          hle (consoleEvents_quiet st level ns hms file line hq)
          (fileEvents_nofp st level ns ymdhms file line hfp), ?_, ?_, ?_, ?_⟩
        · intro h
          exact absurd h hq
        · intro _
          simp [List.filter_append, filter_console_hookEvents,
            isConsoleWrite, List.filter]
        · intro hdl h
          exact absurd h (by simp)
        · intro _
          simp [List.filter_append, filter_file_hookEvents,
            isFileEvent, List.filter]
    | some hdl =>
        refine ⟨_, log_log_emit st level file line fmt args ns hms ymdhms _ _
          hle (consoleEvents_quiet st level ns hms file line hq)
          (fileEvents_emit st level ns ymdhms file line hdl name hfp hn),
          ?_, ?_, ?_, ?_⟩
        · intro h
          exact absurd h hq
        · intro _
          simp [List.filter_append, filter_console_hookEvents,
            isConsoleWrite, List.filter]
        · intro hdl' h
          injection h with h
          subst h
          refine ⟨fileLine ymdhms name ns file line, ?_,
            newlines_fileLine ymdhms name ns file line hmem hymd hfile⟩
          simp [List.filter_append, filter_file_hookEvents,
            isFileEvent, List.filter]
        · intro h
          exact absurd h (by simp)

theorem C5_one_line_per_sink_with_flush_witness :
    ∃ evts, log_log Linit LOG_TRACE "b.cpp" 1 "hello" [] 123456789
        "00:00:01" "1970-01-01 00:00:01" = some evts ∧
      (Linit.quiet = 0 → ∃ cl, evts.filter isConsoleWrite
          = [Event.writeConsole cl, Event.writeConsole "\n"]
        ∧ newlines cl = 0) ∧
      (Linit.quiet ≠ 0 → evts.filter isConsoleWrite = []) ∧
      (∀ hdl, Linit.fp = some hdl → ∃ fl, evts.filter isFileEvent
          = [Event.writeFile hdl fl, Event.writeFile hdl "\n",
             Event.flushFile hdl]
        ∧ newlines fl = 0) ∧
      (Linit.fp = none → evts.filter isFileEvent = []) :=
  C5_one_line_per_sink_with_flush Linit LOG_TRACE "b.cpp" 1 "hello" []
    123456789 "00:00:01" "1970-01-01 00:00:01"
    (by decide) (by decide) (by decide) (by decide) (by decide) (by decide)
